import Mathlib

/-!
Verification development for the placement_ai resume-intake application
(`app.py`). The Python source is shallowly embedded: pure helpers become
Lean functions, the external AI call and the durable stores become explicit
parameters and state values, and Python exceptions become `Except` results.
-/

deriving instance DecidableEq for Except

mutual

/-- Model of a parsed Python JSON value, the result of `json.loads`.
JSON integer literals are represented exactly by `num`; a fractional or
exponent literal (a Python float) is represented by `jfloat m e10`,
carrying its exact decimal value `m * 10 ^ e10`; the non-finite literals
`NaN`, `Infinity` and `-Infinity` accepted by `json.loads` are kept as
`jnonfinite` of their spelling. -/
inductive Json where
  | null
  | bool (b : Bool)
  | num (n : Int)
  | jfloat (m : Int) (e10 : Int)
  | jnonfinite (lit : String)
  | str (s : String)
  | arr (elems : JsonList)
  | obj (fields : JsonFields)
deriving DecidableEq, Repr

/-- List of JSON values, for array elements. -/
inductive JsonList where
  | nil
  | cons (hd : Json) (tl : JsonList)
deriving DecidableEq, Repr

/-- Association list of string keys to JSON values, for object members, in
source order. As in a Python dict built from parsed pairs, a repeated key is
resolved in favour of its last occurrence. -/
inductive JsonFields where
  | nil
  | cons (key : String) (val : Json) (tl : JsonFields)
deriving DecidableEq, Repr

end

/-- Build object members from a plain list of pairs. -/
def JsonFields.ofList : List (String × Json) → JsonFields
  | [] => .nil
  | (k, v) :: rest => .cons k v (ofList rest)

/-- View object members as a plain list of pairs. -/
def JsonFields.toList : JsonFields → List (String × Json)
  | .nil => []
  | .cons k v rest => (k, v) :: toList rest

/-- Build array elements from a plain list. -/
def JsonList.ofList : List Json → JsonList
  | [] => .nil
  | v :: rest => .cons v (ofList rest)

/-- Model of Python `parsed.get(key, dflt)` on a dict built from the parsed
member pairs: the last binding of a repeated key wins, and the default is
returned when the key is absent. -/
def dictGet (fields : JsonFields) (key : String) (dflt : Json) : Json :=
  match fields.toList.reverse.find? (fun kv => kv.1 == key) with
  | some kv => kv.2
  | none => dflt

/-- Whitespace stripped by Python `str.strip()` and `int()`: the ASCII
whitespace characters (Unicode-only whitespace is outside the modelled
fragment; no value handled by this application contains it). -/
def pyWs (c : Char) : Bool :=
  c = ' ' || c = '\t' || c = '\n' || c = '\r' || c = '\x0b' || c = '\x0c'

/-- Model of Python `str.strip()`: drop leading and trailing whitespace. -/
def pyStrip (s : String) : String :=
  (((s.data.dropWhile pyWs).reverse.dropWhile pyWs).reverse).asString

/-- Value of a decimal digit character. -/
def digitVal (c : Char) : Nat := c.toNat - 48

/-- Numeric value of a list of decimal digit characters. -/
def decValue (l : List Char) : Nat := l.foldl (fun a c => 10 * a + digitVal c) 0

/-- Fuel-bounded decimal digit production, most significant digit first. -/
def natDecimalAux : Nat → Nat → List Char
  | 0, _ => []
  | Nat.succ f, n =>
    if n < 10 then [Char.ofNat (48 + n)]
    else natDecimalAux f (n / 10) ++ [Char.ofNat (48 + n % 10)]

/-- Decimal digit list of a natural number, exactly the digits produced by
Python `str` on a non-negative int and by an f-string interpolation. The
fuel `n + 1` always suffices since a number has at most `n + 1` digits. -/
def natDecimal (n : Nat) : List Char := natDecimalAux (n + 1) n

/-- First codepoints of the 66 ten-codepoint runs of Unicode decimal-digit
characters (general category Nd), the characters Python `int()` accepts as
digits; extracted from the Unicode character database version CPython
embeds. Each run assigns the decimal values 0 through 9 in order. -/
def unicodeDigitRangeStarts : List Nat :=
  [48, 1632, 1776, 1984, 2406, 2534, 2662, 2790, 2918, 3046, 3174, 3302,
   3430, 3558, 3664, 3792, 3872, 4160, 4240, 6112, 6160, 6470, 6608, 6784,
   6800, 6992, 7088, 7232, 7248, 42528, 43216, 43264, 43472, 43504, 43600,
   44016, 65296, 66720, 68912, 69734, 69872, 69942, 70096, 70384, 70736,
   70864, 71248, 71360, 71472, 71904, 72016, 72784, 73040, 73120, 92768,
   92864, 93008, 120782, 120792, 120802, 120812, 120822, 123200, 123632,
   125264, 130032]

/-- Decimal value of a Unicode decimal-digit character, if it is one. -/
def pyDigitVal (c : Char) : Option Nat :=
  (unicodeDigitRangeStarts.find? (fun s => s ≤ c.toNat && c.toNat < s + 10)).map
    (fun s => c.toNat - s)

/-- Does Python `int()` accept the character as a digit? -/
def pyDigit (c : Char) : Bool := (pyDigitVal c).isSome

/-- Numeric value of a list of Unicode decimal-digit characters. -/
def pyDecValue (l : List Char) : Nat :=
  l.foldl (fun a c => 10 * a + (pyDigitVal c).getD 0) 0

/-- Tail of the digit grammar of Python `int()`: digits, with a single
underscore allowed only between two digits. -/
def pyIntRest : List Char → Bool
  | [] => true
  | c :: rest =>
    if c = '_' then
      match rest with
      | c2 :: rest2 => pyDigit c2 && pyIntRest rest2
      | [] => false
    else pyDigit c && pyIntRest rest

/-- Digit grammar of Python `int()` after the sign: at least one digit,
with single underscores allowed only between digits. -/
def pyIntDigitsOk : List Char → Bool
  | [] => false
  | c :: rest => pyDigit c && pyIntRest rest

/-- Model of Python `int(s)` on a string: strip whitespace, allow one
optional ASCII sign, then require Unicode decimal digits, with single
underscores permitted between digits, and nothing else. Stripping covers
the ASCII whitespace characters (Unicode-only whitespace is outside the
modelled fragment). -/
def pyIntOfStr (s : String) : Except String Int :=
  let t := pyStrip s
  let signAndDigits : Int × List Char :=
    match t.data with
    | c :: rest =>
      if c = '-' then (-1, rest)
      else if c = '+' then (1, rest) else (1, t.data)
    | [] => (1, [])
  let digits := signAndDigits.2
  if pyIntDigitsOk digits then
    .ok (signAndDigits.1 * (pyDecValue (digits.filter (fun c => c != '_')) : Int))
  else
    .error ("ValueError: invalid literal for int() with base 10: " ++ s)

/-- Round-half-even division of naturals: the nearest integer to `a / b`,
ties to the even quotient. -/
def natDivRoundEven (a b : Nat) : Nat :=
  let q := a / b
  let r := a % b
  if 2 * r < b then q
  else if 2 * r > b then q + 1
  else if q % 2 = 0 then q else q + 1

/-- Fuel-bounded floor of the base-2 logarithm. -/
def natLog2Aux : Nat → Nat → Nat
  | 0, _ => 0
  | Nat.succ f, n => if n < 2 then 0 else natLog2Aux f (n / 2) + 1

/-- Floor of the base-2 logarithm of a positive natural. -/
def natLog2 (n : Nat) : Nat := natLog2Aux n n

/-- Nearest IEEE-754 binary64 value to the positive rational `a / b`,
round-to-nearest ties-to-even: a result `(s, q)` denotes the double
`s * 2 ^ q`, subnormals included; `none` denotes overflow to infinity.
This is the rounding CPython applies to a decimal float literal. -/
def nearestDouble (a b : Nat) : Option (Nat × Int) :=
  let k1 : Int := (natLog2 a : Int) - (natLog2 b : Int)
  let k : Int :=
    if 0 ≤ k1 then (if b * 2 ^ k1.toNat ≤ a then k1 else k1 - 1)
    else (if b ≤ a * 2 ^ (-k1).toNat then k1 else k1 - 1)
  let q : Int := max (k - 52) (-1074)
  let s0 : Nat :=
    if 0 ≤ q then natDivRoundEven a (b * 2 ^ q.toNat)
    else natDivRoundEven (a * 2 ^ (-q).toNat) b
  let sq : Nat × Int := if 2 ^ 53 ≤ s0 then (s0 / 2, q + 1) else (s0, q)
  if sq.2 > 971 then none else some sq

/-- Model of Python `int()` on a float literal of exact decimal value
`m * 10 ^ e10`: the literal is rounded to the nearest double, which is
then truncated toward zero; a literal rounding to an infinity raises
`OverflowError`. -/
def pyIntOfFloat (m e10 : Int) : Except String Int :=
  if m = 0 then .ok 0
  else
    let a : Nat := if 0 ≤ e10 then m.natAbs * 10 ^ e10.toNat else m.natAbs
    let b : Nat := if 0 ≤ e10 then 1 else 10 ^ (-e10).toNat
    match nearestDouble a b with
    | none => .error "OverflowError: cannot convert float infinity to integer"
    | some sq =>
      let mag : Nat := if 0 ≤ sq.2 then sq.1 * 2 ^ sq.2.toNat else sq.1 / 2 ^ (-sq.2).toNat
      .ok (if m < 0 then -(mag : Int) else (mag : Int))

/-- Model of Python `int(x)` on a parsed JSON value. Python bools are ints;
`None`, lists and dicts raise `TypeError`; a float value is truncated
toward zero, raising `OverflowError` when its literal rounds to an
infinity; the non-finite literals raise as in `int(float("nan"))`. -/
def pyInt : Json → Except String Int
  | .num n => .ok n
  | .bool b => .ok (if b then 1 else 0)
  | .str s => pyIntOfStr s
  | .jfloat m e10 => pyIntOfFloat m e10
  | .jnonfinite lit => .error ("cannot convert float " ++ lit ++ " to integer")
  | .null => .error "TypeError: int() argument must not be NoneType"
  | .arr _ => .error "TypeError: int() argument must not be list"
  | .obj _ => .error "TypeError: int() argument must not be dict"

/-- Opening curly brace character. -/
def lbrace : Char := Char.ofNat 123

/-- Closing curly brace character. -/
def rbrace : Char := Char.ofNat 125

/-- JSON whitespace characters accepted between tokens by `json.loads`. -/
def jsonWs (c : Char) : Bool := c = ' ' || c = '\t' || c = '\n' || c = '\r'

/-- Drop leading JSON whitespace. -/
def skipWs : List Char → List Char
  | [] => []
  | c :: cs => if jsonWs c then skipWs cs else c :: cs

/-- Value of a hexadecimal digit character, if any. -/
def hexVal (c : Char) : Option Nat :=
  if '0' ≤ c ∧ c ≤ '9' then some (c.toNat - 48)
  else if 'a' ≤ c ∧ c ≤ 'f' then some (c.toNat - 87)
  else if 'A' ≤ c ∧ c ≤ 'F' then some (c.toNat - 55)
  else none

/-- Parse the body of a JSON string literal, after the opening quote.
Escapes are decoded as by `json.loads`; raw control characters are
rejected as in its default strict mode. Surrogate-pair recombination for
`\uXXXX` escapes is not modelled. -/
def parseStringBody (acc : List Char) : List Char → Except String (String × List Char)
  | [] => .error "Unterminated string"
  | c :: cs =>
    if c = '\"' then .ok (acc.reverse.asString, cs)
    else if c = '\\' then
      match cs with
      | [] => .error "Unterminated string"
      | e :: cs' =>
        if e = '\"' then parseStringBody ('\"' :: acc) cs'
        else if e = '\\' then parseStringBody ('\\' :: acc) cs'
        else if e = '/' then parseStringBody ('/' :: acc) cs'
        else if e = 'b' then parseStringBody (Char.ofNat 8 :: acc) cs'
        else if e = 'f' then parseStringBody (Char.ofNat 12 :: acc) cs'
        else if e = 'n' then parseStringBody ('\n' :: acc) cs'
        else if e = 'r' then parseStringBody ('\r' :: acc) cs'
        else if e = 't' then parseStringBody ('\t' :: acc) cs'
        else if e = 'u' then
          match cs' with
          | h1 :: h2 :: h3 :: h4 :: cs'' =>
            match hexVal h1, hexVal h2, hexVal h3, hexVal h4 with
            | some a, some b, some c2, some d =>
              parseStringBody (Char.ofNat (4096 * a + 256 * b + 16 * c2 + d) :: acc) cs''
            | _, _, _, _ => .error "Invalid hex escape"
          | _ => .error "Invalid hex escape"
        else .error "Invalid escape"
    else if c.toNat < 32 then .error "Invalid control character"
    else parseStringBody (c :: acc) cs

/-- Parse the exponent tail of a JSON number literal, after the `e`: an
optional sign and at least one digit. Such a literal is a Python float;
its mantissa `m` (sign included, fraction digits absorbed) and the
fraction length are combined with the exponent into the exact decimal
value `m * 10 ^ e10`. -/
def parseExpPart (m : Int) (fracLen : Nat) (cs : List Char) : Except String (Json × List Char) :=
  let spl : Bool × List Char :=
    match cs with
    | c :: rest =>
      if c = '-' then (true, rest)
      else if c = '+' then (false, rest) else (false, cs)
    | [] => (false, cs)
  let expDigits := spl.2.span (fun c => c.isDigit)
  if expDigits.1.isEmpty then .error "Expecting value"
  else
    let ev : Int := if spl.1 then -(decValue expDigits.1 : Int) else (decValue expDigits.1 : Int)
    .ok (Json.jfloat m (ev - (fracLen : Int)), expDigits.2)

/-- Parse a JSON number literal per the JSON grammar used by `json.loads`:
optional minus, integer part with no leading zero, optional fraction and
exponent. Pure integer literals yield `Json.num`; fraction or exponent
literals yield `Json.jfloat` carrying their exact decimal value. -/
def parseNumber (cs : List Char) : Except String (Json × List Char) :=
  let spl : Bool × List Char :=
    match cs with
    | c :: rest => if c = '-' then (true, rest) else (false, cs)
    | [] => (false, cs)
  let neg := spl.1
  let intSpan := spl.2.span (fun c => c.isDigit)
  let intDigits := intSpan.1
  if intDigits.isEmpty then .error "Expecting value"
  else if 1 < intDigits.length ∧ intDigits.head? = some '0' then .error "Expecting value"
  else
    match intSpan.2 with
    | '.' :: csf =>
      let fracSpan := csf.span (fun c => c.isDigit)
      if fracSpan.1.isEmpty then .error "Expecting value"
      else
        let m : Int := if neg then -(decValue (intDigits ++ fracSpan.1) : Int)
          else (decValue (intDigits ++ fracSpan.1) : Int)
        match fracSpan.2 with
        | c :: cse =>
          if c = 'e' ∨ c = 'E' then parseExpPart m fracSpan.1.length cse
          else .ok (Json.jfloat m (-(fracSpan.1.length : Int)), fracSpan.2)
        | [] => .ok (Json.jfloat m (-(fracSpan.1.length : Int)), [])
    | c :: cse =>
      if c = 'e' ∨ c = 'E' then
        parseExpPart (if neg then -(decValue intDigits : Int) else (decValue intDigits : Int))
          0 cse
      else
        .ok (Json.num (if neg then -(decValue intDigits : Int) else (decValue intDigits : Int)),
          intSpan.2)
    | [] =>
      .ok (Json.num (if neg then -(decValue intDigits : Int) else (decValue intDigits : Int)), [])

mutual

/-- Parse one JSON value, fuel-bounded recursive descent mirroring the
grammar accepted by Python `json.loads`, including its `NaN` and
`Infinity` extensions. -/
def parseVal (fuel : Nat) (cs : List Char) : Except String (Json × List Char) :=
  match fuel with
  | 0 => .error "Nesting depth exceeded"
  | Nat.succ f =>
    match skipWs cs with
    | [] => .error "Expecting value"
    | c :: rest =>
      if c = lbrace then
        match skipWs rest with
        | c2 :: rest2 =>
          if c2 = rbrace then .ok (Json.obj JsonFields.nil, rest2)
          else parseMembers f (c2 :: rest2) []
        | [] => .error "Expecting property name"
      else if c = '[' then
        match skipWs rest with
        | c2 :: rest2 =>
          if c2 = ']' then .ok (Json.arr JsonList.nil, rest2)
          else parseElems f (c2 :: rest2) []
        | [] => .error "Expecting value"
      else if c = '\"' then
        match parseStringBody [] rest with
        | .ok (s, rest') => .ok (Json.str s, rest')
        | .error e => .error e
      else if c = 't' then
        match rest with
        | 'r' :: 'u' :: 'e' :: rest' => .ok (Json.bool true, rest')
        | _ => .error "Expecting value"
      else if c = 'f' then
        match rest with
        | 'a' :: 'l' :: 's' :: 'e' :: rest' => .ok (Json.bool false, rest')
        | _ => .error "Expecting value"
      else if c = 'n' then
        match rest with
        | 'u' :: 'l' :: 'l' :: rest' => .ok (Json.null, rest')
        | _ => .error "Expecting value"
      else if c = 'N' then
        match rest with
        | 'a' :: 'N' :: rest' => .ok (Json.jnonfinite "NaN", rest')
        | _ => .error "Expecting value"
      else if c = 'I' then
        match rest with
        | 'n' :: 'f' :: 'i' :: 'n' :: 'i' :: 't' :: 'y' :: rest' =>
          .ok (Json.jnonfinite "Infinity", rest')
        | _ => .error "Expecting value"
      else if c = '-' ∧ rest.head? = some 'I' then
        match rest with
        | 'I' :: 'n' :: 'f' :: 'i' :: 'n' :: 'i' :: 't' :: 'y' :: rest' =>
          .ok (Json.jnonfinite "-Infinity", rest')
        | _ => .error "Expecting value"
      else if c = '-' ∨ c.isDigit then parseNumber (c :: rest)
      else .error "Expecting value"

/-- Parse the members of a JSON object, after the opening brace, first key
not yet consumed. Keys repeat as in Python, where the later binding wins. -/
def parseMembers (fuel : Nat) (cs : List Char) (acc : List (String × Json)) :
    Except String (Json × List Char) :=
  match fuel with
  | 0 => .error "Nesting depth exceeded"
  | Nat.succ f =>
    match skipWs cs with
    | '\"' :: rest =>
      match parseStringBody [] rest with
      | .error e => .error e
      | .ok (key, rest1) =>
        match skipWs rest1 with
        | ':' :: rest2 =>
          match parseVal f rest2 with
          | .error e => .error e
          | .ok (v, rest3) =>
            match skipWs rest3 with
            | c :: rest4 =>
              if c = ',' then parseMembers f rest4 (acc ++ [(key, v)])
              else if c = rbrace then .ok (Json.obj (JsonFields.ofList (acc ++ [(key, v)])), rest4)
              else .error "Expecting delimiter"
            | [] => .error "Expecting delimiter"
        | _ => .error "Expecting colon delimiter"
    | _ => .error "Expecting property name"

/-- Parse the elements of a JSON array, after the opening bracket, first
element not yet consumed. -/
def parseElems (fuel : Nat) (cs : List Char) (acc : List Json) :
    Except String (Json × List Char) :=
  match fuel with
  | 0 => .error "Nesting depth exceeded"
  | Nat.succ f =>
    match parseVal f cs with
    | .error e => .error e
    | .ok (v, rest) =>
      match skipWs rest with
      | c :: rest2 =>
        if c = ',' then parseElems f rest2 (acc ++ [v])
        else if c = ']' then .ok (Json.arr (JsonList.ofList (acc ++ [v])), rest2)
        else .error "Expecting delimiter"
      | [] => .error "Expecting delimiter"

end

/-- Model of Python `json.loads` on the response text: parse one JSON value
and require only trailing whitespace after it. Every failure is a
`json.JSONDecodeError`, the exception caught by the adapter's inner
handler. -/
def jsonLoads (s : String) : Except String Json :=
  match parseVal (s.data.length + 1) s.data with
  | .error e => .error e
  | .ok (v, rest) =>
    match skipWs rest with
    | [] => .ok v
    | _ :: _ => .error "Extra data"

/-- External-call outcome of one Gemini invocation: either an exception was
raised somewhere in building the model, generating content or reading the
response text (any cause string), or a response text was obtained. -/
inductive ModelOutcome where
  | failure (cause : String)
  | success (content : String)
deriving DecidableEq, Repr

/-- Inner `try` block of `analyze_resume_with_ai`, applied to the obtained
response text: `json.loads` failures are caught and give the 50/"Unknown"
fallback, while exceptions of other types — `AttributeError` from `.get` on
a non-dict value, or `ValueError`/`TypeError` from `int` — escape to the
outer handler. -/
def innerParse (content : String) : Except String (Int × Json) :=
  match jsonLoads content with
  | .error _ => .ok (50, Json.str "Unknown")
  | .ok (Json.obj fields) =>
    match pyInt (dictGet fields "score" (Json.num 50)) with
    | .error e => .error e
    | .ok score => .ok (score, dictGet fields "best_role" (Json.str "Generalist"))
  | .ok _ => .error "AttributeError: object has no attribute get"

/-- Model of `analyze_resume_with_ai(skills_text)`: returns the
(score, best_role, raw_content) triple. The external call's outcome is an
explicit argument; the prompt built from `skills_text` only influences the
model's reply, which the outcome already carries. Any exception — from the
invocation itself or escaping the inner parse block — is caught by the
outer handler and degraded to the 0/"AI Processing Failed" triple. -/
def analyze_resume_with_ai (skills_text : String) (outcome : ModelOutcome) :
    Int × Json × String :=
  match outcome with
  | .failure cause => (0, Json.str "AI Processing Failed", "AI Error: " ++ cause)
  | .success content =>
    match innerParse content with
    | .ok sr => (sr.1, sr.2, content)
    | .error e => (0, Json.str "AI Processing Failed", "AI Error: " ++ e)

/-- Position of the last occurrence of a character, `-1` when absent, the
Python `str.rfind` convention used by `os.path.splitext`. -/
def lastIndexOfAux (c : Char) : List Char → Nat → Int → Int
  | [], _, acc => acc
  | x :: xs, i, acc => lastIndexOfAux c xs (i + 1) (if x = c then (i : Int) else acc)

/-- Last index of `c` in `l`, or `-1`. -/
def lastIndexOf (c : Char) (l : List Char) : Int := lastIndexOfAux c l 0 (-1)

/-- Model of `os.path.splitext` (posix): split at the last dot, unless that
dot belongs to a leading run of dots of the base name, in which case the
extension is empty. -/
def splitext (p : String) : String × String :=
  let l := p.data
  let sepIndex := lastIndexOf '/' l
  let dotIndex := lastIndexOf '.' l
  if sepIndex < dotIndex ∧
      ∃ k ∈ List.range l.length, sepIndex < (k : Int) ∧ (k : Int) < dotIndex ∧ l.get? k ≠ some '.'
  then ((l.take dotIndex.toNat).asString, (l.drop dotIndex.toNat).asString)
  else (p, "")

/-- ASCII lower-casing, the effect of Python `str.lower` on the ASCII
filenames this development evaluates. -/
def asciiLower (c : Char) : Char :=
  if 'A' ≤ c ∧ c ≤ 'Z' then Char.ofNat (c.toNat + 32) else c

/-- Lower-case a string character-wise. -/
def lowerStr (s : String) : String := (s.data.map asciiLower).asString

/-- The single allowed upload extension. -/
def ALLOWED_EXT : List String := [".pdf"]

/-- Model of `allowed_file`: the lower-cased extension must be allowed. -/
def allowed_file (filename : String) : Bool :=
  ALLOWED_EXT.contains (lowerStr (splitext filename).2)

/-- Characters kept by werkzeug's filename sanitisation. -/
def secureKeepChar (c : Char) : Bool := c.isAlphanum || c == '_' || c == '.' || c == '-'

/-- Split on whitespace runs, dropping empty groups, as Python `str.split()`
with no arguments does. -/
def splitWsAux (acc : List Char) : List Char → List (List Char)
  | [] => if acc.isEmpty then [] else [acc.reverse]
  | c :: cs =>
    if pyWs c then
      if acc.isEmpty then splitWsAux [] cs else acc.reverse :: splitWsAux [] cs
    else splitWsAux (c :: acc) cs

/-- Strip leading and trailing dots and underscores. -/
def stripDotUnderscore (l : List Char) : List Char :=
  ((l.dropWhile fun c => c == '.' || c == '_').reverse.dropWhile
    (fun c => c == '.' || c == '_')).reverse

/-- Model of werkzeug `secure_filename` on ASCII input under posix: the
path separator `/` becomes a space (`os.path.altsep` is `None`, so a
backslash is not a separator and is instead deleted by the character
filter), whitespace runs collapse to single underscores, characters other
than ASCII alphanumerics, dot, underscore and dash are removed, and
leading or trailing dots and underscores are stripped. The Unicode
NFKD/ASCII-encode step and the Windows reserved-name special case are
outside the modelled fragment (identities on the filenames evaluated
here). -/
def secure_filename (filename : String) : String :=
  let replaced := filename.data.map (fun c => if c == '/' then ' ' else c)
  let ascii := replaced.filter (fun c => c.toNat < 128)
  let joined := List.intercalate ['_'] (splitWsAux [] ascii)
  (stripDotUnderscore (joined.filter secureKeepChar)).asString

/-- Candidate storage name tried by the collision loop: the f-string
interpolation of base, underscore, counter and extension. -/
def candName (base ext : String) (k : Nat) : String :=
  base ++ "_" ++ (natDecimal k).asString ++ ext

/-- Model of the upload collision loop: while the current name exists in
storage, move to the next suffixed candidate. The source's `while` loop is
unbounded; the fuel argument is given as `storage.length + 1`, which the
uniqueness theorem below proves sufficient, so the bounded model coincides
with the source loop. -/
def findFreeName (storage : List String) (base ext : String) (current : String)
    (counter fuel : Nat) : String :=
  match fuel with
  | 0 => current
  | Nat.succ f =>
    if current ∈ storage then
      findFreeName storage base ext (candName base ext counter) (counter + 1) f
    else current

/-- Storage name chosen for a sanitised upload filename: the filename
itself when free, else the first free suffixed candidate. -/
def uniqueName (storage : List String) (filename : String) : String :=
  findFreeName storage (splitext filename).1 (splitext filename).2 filename 1
    (storage.length + 1)

/-- One parsed row of `users.csv` under its fixed header
`Email, Password, IsAdmin`. -/
structure UserRow where
  email : String
  password : String
  isAdmin : String
deriving DecidableEq, Repr

/-- The credential store as initialised on first run: the seeded
administrator row. -/
def initialUsers : List UserRow := [⟨"admin@admin.com", "admin123", "1"⟩]

/-- Outcome of a POST to `/signup`. -/
inductive SignupResult where
  | missingFields
  | duplicateAccount
  | created
deriving DecidableEq, Repr

/-- First credential row with the given identifier, the duplicate scan of
the signup route. -/
def findAccount (store : List UserRow) (email : String) : Option UserRow :=
  store.find? (fun row => row.email == email)

/-- Model of the `/signup` POST handler: strip the form fields, reject
blank ones, reject an identifier that already has a row, otherwise append
one non-admin row. The returned list is the credential store after the
request. -/
def signup (store : List UserRow) (emailForm passwordForm : String) :
    SignupResult × List UserRow :=
  let email := pyStrip emailForm
  let password := pyStrip passwordForm
  if email = "" ∨ password = "" then (.missingFields, store)
  else if (findAccount store email).isSome then (.duplicateAccount, store)
  else (.created, store ++ [⟨email, password, "0"⟩])

/-- Outcome of a POST to `/login`. -/
inductive LoginResult where
  | invalidCredentials
  | loggedIn (is_admin : Bool)
deriving DecidableEq, Repr

/-- Model of the `/login` POST handler: scan for the first row matching
both stripped fields; on a match the session's `is_admin` flag becomes the
comparison of that row's `IsAdmin` cell with the string "1". -/
def login (store : List UserRow) (emailForm passwordForm : String) : LoginResult :=
  let email := pyStrip emailForm
  let password := pyStrip passwordForm
  match store.find? (fun row => row.email == email && row.password == password) with
  | some row => .loggedIn (row.isAdmin == "1")
  | none => .invalidCredentials

/-- Credential store reached from the seeded store by a sequence of signup
requests, each a pair of raw email and password form fields. -/
def runSignups (store : List UserRow) (reqs : List (String × String)) : List UserRow :=
  reqs.foldl (fun st req => (signup st req.1 req.2).2) store

/-- A row as produced by `csv.DictReader`: each header column name paired
with its cell, the cell being `none` when the data row is shorter than the
header (Python fills such cells with `None`). Unmatched extra cells land
under the reader's restkey and are never consulted by this application. -/
abbrev Record := List (String × Option String)

/-- Build the `DictReader` row for one data row under a header. When the
same column name repeats, the dict keeps the later binding; `rowGet` below
honours that by scanning from the right. -/
def dictRow (header fields : List String) : Record :=
  header.enum.map (fun ih => (ih.2, fields.get? ih.1))

/-- Model of `row.get(key)`: `none` when the key is absent, otherwise the
cell value of the last binding of the key. -/
def rowGet (row : Record) (key : String) : Option (Option String) :=
  (row.reverse.find? (fun kv => kv.1 == key)).map (fun kv => kv.2)

/-- Contents of `submissions.csv` as seen by the `csv` module: `none` when
the file does not exist, otherwise the parsed rows, the first being the
header written at initialisation. -/
abbrev CsvFile := Option (List (List String))

/-- Model of the dashboard's ledger read: no file yields no rows, otherwise
every non-blank data row becomes a `DictReader` record in file order
(`DictReader` skips blank rows). -/
def loadAll (file : CsvFile) : List Record :=
  match file with
  | none => []
  | some [] => []
  | some (header :: dataRows) =>
    (dataRows.filter (fun r => !r.isEmpty)).map (dictRow header)

/-- Sort key `int(r.get("AIScore", 0))` of one loaded record: a missing key
yields the integer default 0; a present cell goes through `int`, which
raises on non-numeric text and on a `None` cell. -/
def sortKey (row : Record) : Except String Int :=
  match rowGet row "AIScore" with
  | none => .ok 0
  | some none => .error "TypeError: int() argument must not be NoneType"
  | some (some s) => pyIntOfStr s

/-- The sort key where it is defined, with an unused placeholder on rows
whose key raises; `rank` only sorts once every key is defined. -/
def keyD (row : Record) : Int :=
  match sortKey row with
  | .ok n => n
  | .error _ => 0

/-- Comparator of the descending stable sort: `a` may precede `b` when its
key is at least `b`'s. -/
def scoreLe (a b : Record) : Bool := decide (keyD b ≤ keyD a)

/-- Model of `rows.sort(key=lambda r: int(r.get("AIScore", 0)), reverse=True)`
on the loaded rows: Python's sort first computes every key, propagating the
first exception; otherwise it reorders the list into the stable descending
key order, which is exactly stable merge sort under `scoreLe`. -/
def rank (rows : List Record) : Except String (List Record) :=
  match rows.mapM sortKey with
  | .error e => .error e
  | .ok _ => .ok (rows.mergeSort scoreLe)

/-- Response of the `/admin` route. -/
inductive AdminView where
  | redirectLogin
  | page (rows : List Record)
  | serverError (msg : String)
deriving DecidableEq, Repr

/-- Model of the `/admin` route: `session.get("is_admin")` must be the
value `True` — an absent key or a `False` value redirects to login before
the ledger file is ever opened; otherwise the ledger is loaded and ranked,
and an exception escaping the sort surfaces as a server error. -/
def admin_dashboard (sessionIsAdmin : Option Bool) (file : CsvFile) : AdminView :=
  match sessionIsAdmin with
  | some true =>
    match rank (loadAll file) with
    | .ok rows => .page rows
    | .error e => .serverError e
  | _ => .redirectLogin

/-- Arguments of the `writer.writerow` call appending one submission. -/
structure SubmissionEntry where
  name : String
  email : String
  skills : String
  filename : String
  score : Int
  bestRole : Json
  feedback : String
deriving DecidableEq, Repr

/-- The durable stores touched by an upload: the names present in the
resumes folder, and the rows appended to the submissions ledger. -/
structure AppState where
  resumesFolder : List String
  submissions : List SubmissionEntry
deriving DecidableEq, Repr

/-- Form data of a POST to `/upload`; `resume` is the filename of the file
part when one is present. -/
structure UploadForm where
  name : String
  email : String
  skills : String
  resume : Option String
deriving DecidableEq, Repr

/-- Outcome of a POST to `/upload`. -/
inductive UploadOutcome where
  | redirectLogin
  | missingFields
  | unsupportedType
  | stored (storedName : String) (score : Int) (bestRole : Json)
deriving DecidableEq, Repr

/-- Model of the `/upload` POST handler: require a session, require all
form fields and a file part, require an allowed extension, then resolve a
collision-free storage name, save the file, score the skills text and
append the ledger row. -/
def uploadPost (loggedIn : Bool) (form : UploadForm) (ai : ModelOutcome)
    (st : AppState) : UploadOutcome × AppState :=
  if !loggedIn then (.redirectLogin, st)
  else
    let name := pyStrip form.name
    let email := pyStrip form.email
    let skills := pyStrip form.skills
    match form.resume with
    | none => (.missingFields, st)
    | some rawFilename =>
      if name = "" ∨ email = "" ∨ skills = "" then (.missingFields, st)
      else if !allowed_file rawFilename then (.unsupportedType, st)
      else
        let filename := uniqueName st.resumesFolder (secure_filename rawFilename)
        let res := analyze_resume_with_ai skills ai
        (.stored filename res.1 res.2.1,
         { resumesFolder := st.resumesFolder ++ [filename],
           submissions := st.submissions ++
             [⟨name, email, skills, filename, res.1, res.2.1, res.2.2⟩] })

/-- Trace of the storage names examined by `findFreeName`, in order: the
current name, then each successive suffixed candidate. Used to reason about
the collision loop. -/
def triedNames (base ext current : String) (counter fuel : Nat) : List String :=
  match fuel with
  | 0 => []
  | Nat.succ f => current :: triedNames base ext (candName base ext counter) (counter + 1) f

/-- C4: the scoring adapter never raises to its caller — it is total into
result triples by construction — and on any failure to invoke the model at
all it returns score 0, bestRole "AI Processing Failed" and rawResponse
"AI Error: " followed by the cause. -/
theorem C4_invocation_failure (skills cause : String) :
    analyze_resume_with_ai skills (ModelOutcome.failure cause) =
      (0, Json.str "AI Processing Failed", "AI Error: " ++ cause) := rfl

/-- C1 fails as stated: the response text "42" is not parseable as a JSON
object — it parses as a bare JSON number — yet the adapter does not return
the 50/"Unknown"/full-text triple; the attribute error raised by `.get` on
a non-dict sends it down the generic failure path with score 0. -/
theorem C1_counterexample :
    jsonLoads "42" = Except.ok (Json.num 42) ∧
      analyze_resume_with_ai "x" (ModelOutcome.success "42") ≠
        (50, Json.str "Unknown", "42") := by decide

/-- C1 amended: for every model response text on which JSON parsing raises
`json.JSONDecodeError`, the adapter returns score 50, bestRole "Unknown"
and rawResponse carrying the full original text — non-empty exactly when
the response text is — while a response text that parses as a non-object
JSON value instead takes the generic failure path with score 0 and
bestRole "AI Processing Failed". -/
theorem C1_parse_failure :
    (∀ skills content e, jsonLoads content = Except.error e →
      analyze_resume_with_ai skills (ModelOutcome.success content) =
        (50, Json.str "Unknown", content)) ∧
    (∀ skills content v, jsonLoads content = Except.ok v →
      (∀ fields, v ≠ Json.obj fields) →
      analyze_resume_with_ai skills (ModelOutcome.success content) =
        (0, Json.str "AI Processing Failed",
          "AI Error: AttributeError: object has no attribute get")) := by
  constructor
  · intro skills content e h
    simp only [analyze_resume_with_ai, innerParse, h]
  · intro skills content v h hv
    have hi : innerParse content =
        Except.error "AttributeError: object has no attribute get" := by
      simp only [innerParse, h]
    simp only [analyze_resume_with_ai, hi]
    rfl

/-- C1 witness: the spec's own scenario, a non-JSON reply. -/
theorem C1_parse_failure_witness :
    analyze_resume_with_ai "x" (ModelOutcome.success "Looks solid.") =
      (50, Json.str "Unknown", "Looks solid.") :=
  C1_parse_failure.1 "x" "Looks solid." "Expecting value" (by decide)

/-- C8: for a response text that parses as a JSON object, the adapter
returns the `int` of the object's "score" member — the default 50 standing
in when the key is absent — the object's "best_role" member — defaulting
to "Generalist" when absent — and the raw response text. -/
theorem C8_json_object (skills content : String) (fields : JsonFields) (n : Int)
    (hp : jsonLoads content = Except.ok (Json.obj fields))
    (hs : pyInt (dictGet fields "score" (Json.num 50)) = Except.ok n) :
    analyze_resume_with_ai skills (ModelOutcome.success content) =
      (n, dictGet fields "best_role" (Json.str "Generalist"), content) := by
  simp only [analyze_resume_with_ai, innerParse, hp, hs]

/-- C8 witness: the spec's 82/"Backend Engineer" scenario. -/
theorem C8_json_object_witness :
    analyze_resume_with_ai "Python, SQL"
        (ModelOutcome.success "\x7b\"score\": 82, \"best_role\": \"Backend Engineer\"\x7d") =
      (82, Json.str "Backend Engineer",
        "\x7b\"score\": 82, \"best_role\": \"Backend Engineer\"\x7d") := by
  have h := C8_json_object "Python, SQL"
    "\x7b\"score\": 82, \"best_role\": \"Backend Engineer\"\x7d"
    (JsonFields.cons "score" (Json.num 82)
      (JsonFields.cons "best_role" (Json.str "Backend Engineer") JsonFields.nil))
    82 (by decide) (by decide)
  have hd : dictGet
      (JsonFields.cons "score" (Json.num 82)
        (JsonFields.cons "best_role" (Json.str "Backend Engineer") JsonFields.nil))
      "best_role" (Json.str "Generalist") = Json.str "Backend Engineer" := by decide
  rw [hd] at h
  exact h

/-- C9: loading the ledger returns the records in insertion order — each
non-blank data row in file order — returns the empty sequence rather than
an error when the file does not yet exist, and two loads of the same file
with no intervening appends yield identical sequences. -/
theorem C9_loadAll :
    loadAll none = [] ∧
    (∀ header dataRows, (∀ r ∈ dataRows, r ≠ ([] : List String)) →
      loadAll (some (header :: dataRows)) = dataRows.map (dictRow header)) ∧
    (∀ file : CsvFile, loadAll file = loadAll file) := by
  refine ⟨rfl, ?_, fun _ => rfl⟩
  intro header dataRows h
  have hf : dataRows.filter (fun r => !r.isEmpty) = dataRows :=
    List.filter_eq_self.mpr (fun r hr => by
      simpa [List.isEmpty_iff] using h r hr)
  simp [loadAll, hf]

/-- C9 witness: a two-record ledger loads in insertion order. -/
theorem C9_loadAll_witness :
    loadAll (some [["Name", "AIScore"], ["a", "10"], ["b", "90"]]) =
      [dictRow ["Name", "AIScore"] ["a", "10"], dictRow ["Name", "AIScore"] ["b", "90"]] :=
  C9_loadAll.2.1 ["Name", "AIScore"] [["a", "10"], ["b", "90"]] (by decide)

/-- C7: signing up with an identifier that already has a credential row
fails with the duplicate-account rejection and leaves the store unchanged —
an identifier stored exactly once stays stored exactly once — while a
fresh identifier with non-blank fields appends exactly one new non-admin
row. -/
theorem C7_duplicate_account (store : List UserRow) (emailForm passwordForm : String)
    (he : pyStrip emailForm ≠ "") (hp : pyStrip passwordForm ≠ "") :
    ((findAccount store (pyStrip emailForm)).isSome = true →
      signup store emailForm passwordForm = (SignupResult.duplicateAccount, store)) ∧
    ((findAccount store (pyStrip emailForm)).isSome = false →
      signup store emailForm passwordForm =
        (SignupResult.created,
          store ++ [⟨pyStrip emailForm, pyStrip passwordForm, "0"⟩])) ∧
    ((store.filter (fun r => r.email == pyStrip emailForm)).length = 1 →
      (((signup store emailForm passwordForm).2).filter
        (fun r => r.email == pyStrip emailForm)).length = 1) := by
  have hne : ¬(pyStrip emailForm = "" ∨ pyStrip passwordForm = "") := by
    simp [he, hp]
  refine ⟨fun hd => by simp [signup, hne, hd], fun hd => by simp [signup, hne, hd], ?_⟩
  intro hcount
  have hnil : store.filter (fun r => r.email == pyStrip emailForm) ≠ [] := by
    intro h0
    rw [h0] at hcount
    simp at hcount
  obtain ⟨x, hx⟩ := List.exists_mem_of_ne_nil _ hnil
  have hd : (findAccount store (pyStrip emailForm)).isSome = true := by
    rw [findAccount, List.find?_isSome]
    have hx' := List.mem_filter.mp hx
    exact ⟨x, hx'.1, hx'.2⟩
  have h1 : signup store emailForm passwordForm = (SignupResult.duplicateAccount, store) := by
    simp [signup, hne, hd]
  rw [h1]
  exact hcount

/-- C7 witness: the spec's scenario — sign up "a@a.com" twice from the
seeded store; the second attempt is rejected as a duplicate and the store
keeps exactly one row for that identifier. -/
theorem C7_duplicate_account_witness :
    signup ((signup initialUsers "a@a.com" "pw").2) "a@a.com" "pw2" =
      (SignupResult.duplicateAccount, (signup initialUsers "a@a.com" "pw").2) ∧
    (((signup initialUsers "a@a.com" "pw").2).filter
      (fun r => r.email == "a@a.com")).length = 1 := by
  constructor
  · exact (C7_duplicate_account _ "a@a.com" "pw2" (by decide) (by decide)).1 (by decide)
  · decide

/-- Rows present after a signup: each was already present, or is the newly
appended row carrying IsAdmin "0". -/
theorem signup_rows (store : List UserRow) (emailForm passwordForm : String) :
    ∀ r ∈ (signup store emailForm passwordForm).2, r ∈ store ∨ r.isAdmin = "0" := by
  intro r hr
  simp only [signup] at hr
  by_cases h1 : pyStrip emailForm = "" ∨ pyStrip passwordForm = ""
  · rw [if_pos h1] at hr
    exact .inl hr
  · rw [if_neg h1] at hr
    by_cases h2 : (findAccount store (pyStrip emailForm)).isSome = true
    · rw [if_pos h2] at hr
      exact .inl hr
    · rw [if_neg h2] at hr
      rcases List.mem_append.mp hr with hm | hm
      · exact .inl hm
      · right
        rw [List.mem_singleton.mp hm]

/-- Every admin-flagged row reachable from a store by signups was already
admin-flagged in that store; in particular, over the seeded store, the only
admin-flagged row ever present is the seeded administrator row. -/
theorem runSignups_admin_invariant (reqs : List (String × String)) :
    ∀ store : List UserRow,
      (∀ r ∈ store, r.isAdmin = "1" → r = ⟨"admin@admin.com", "admin123", "1"⟩) →
      ∀ r ∈ runSignups store reqs, r.isAdmin = "1" →
        r = ⟨"admin@admin.com", "admin123", "1"⟩ := by
  induction reqs with
  | nil =>
    intro store h
    simpa [runSignups] using h
  | cons req rest ih =>
    intro store h
    have hstep : ∀ r ∈ (signup store req.1 req.2).2, r.isAdmin = "1" →
        r = (⟨"admin@admin.com", "admin123", "1"⟩ : UserRow) := by
      intro r hr hadm
      rcases signup_rows store req.1 req.2 r hr with hmem | h0
      · exact h r hmem hadm
      · rw [h0] at hadm
        exact absurd hadm (by decide)
    have hfold : runSignups store (req :: rest) =
        runSignups ((signup store req.1 req.2).2) rest := by
      simp [runSignups]
    rw [hfold]
    exact ih _ hstep

/-- C10: the ranking view is admin-gated. A session without `is_admin` set
to `True` — including a logged-in non-admin applicant — is redirected to
login, with a response independent of the ledger contents; login sets the
flag from the comparison of the matched row's IsAdmin cell with "1";
signup only ever appends rows with IsAdmin "0"; hence over any store
reachable from the seeded one, only the seeded administrator credentials
produce an admin session. -/
theorem C10_admin_gate :
    (∀ (s : Option Bool) (f g : CsvFile), s ≠ some true →
      admin_dashboard s f = AdminView.redirectLogin ∧
      admin_dashboard s f = admin_dashboard s g) ∧
    (∀ (store : List UserRow) (emailForm passwordForm : String) (row : UserRow),
      store.find? (fun r => r.email == pyStrip emailForm &&
        r.password == pyStrip passwordForm) = some row →
      login store emailForm passwordForm = LoginResult.loggedIn (row.isAdmin == "1")) ∧
    (∀ (store : List UserRow) (emailForm passwordForm : String),
      ∀ r ∈ (signup store emailForm passwordForm).2, r ∈ store ∨ r.isAdmin = "0") ∧
    (∀ (reqs : List (String × String)) (emailForm passwordForm : String),
      login (runSignups initialUsers reqs) emailForm passwordForm =
        LoginResult.loggedIn true →
      pyStrip emailForm = "admin@admin.com" ∧ pyStrip passwordForm = "admin123") := by
  refine ⟨?_, ?_, signup_rows, ?_⟩
  · intro s f g hs
    match s with
    | none => exact ⟨rfl, rfl⟩
    | some false => exact ⟨rfl, rfl⟩
    | some true => exact absurd rfl hs
  · intro store emailForm passwordForm row hf
    simp only [login, hf]
  · intro reqs emailForm passwordForm hl
    rcases hfind : (runSignups initialUsers reqs).find?
        (fun row => row.email == pyStrip emailForm &&
          row.password == pyStrip passwordForm) with _ | row
    · simp only [login, hfind] at hl
      cases hl
    · simp only [login, hfind] at hl
      have hb : (row.isAdmin == "1") = true := by
        injection hl
      have hadm : row.isAdmin = "1" := eq_of_beq hb
      have hmem := List.mem_of_find?_eq_some hfind
      have hpred := List.find?_some hfind
      have hrow := runSignups_admin_invariant reqs initialUsers (by decide) row hmem hadm
      rw [hrow] at hpred
      simp only [Bool.and_eq_true, beq_iff_eq] at hpred
      exact ⟨hpred.1.symm, hpred.2.symm⟩

/-- C10 witness: a non-admin session is redirected regardless of ledger
contents, and an admin session is only reachable with the seeded
credentials. -/
theorem C10_admin_gate_witness :
    admin_dashboard (some false) (some [["Name", "AIScore"], ["a", "99"]]) =
      AdminView.redirectLogin ∧
    pyStrip "admin@admin.com" = "admin@admin.com" := by
  refine ⟨(C10_admin_gate.1 (some false) _ none (by decide)).1, ?_⟩
  exact (C10_admin_gate.2.2.2 [("a@a.com", "pw")] "admin@admin.com" "admin123"
    (by decide)).1

/-- C6: an upload whose filename's lower-cased extension is not ".pdf" is
rejected as an unsupported type with both stores untouched — no file is
written and no ledger row appended — and, generally, every upload outcome
other than a stored submission leaves the state unchanged, so a failed
intake never reaches the ledger append step. -/
theorem C6_unsupported_type :
    (∀ (form : UploadForm) (ai : ModelOutcome) (st : AppState) (rawFilename : String),
      pyStrip form.name ≠ "" → pyStrip form.email ≠ "" → pyStrip form.skills ≠ "" →
      form.resume = some rawFilename →
      lowerStr (splitext rawFilename).2 ≠ ".pdf" →
      uploadPost true form ai st = (UploadOutcome.unsupportedType, st)) ∧
    (∀ (loggedIn : Bool) (form : UploadForm) (ai : ModelOutcome) (st : AppState),
      (∀ n sc br, (uploadPost loggedIn form ai st).1 ≠ UploadOutcome.stored n sc br) →
      (uploadPost loggedIn form ai st).2 = st) := by
  constructor
  · intro form ai st rawFilename h1 h2 h3 hres hext
    have hall : allowed_file rawFilename = false := by
      simp [allowed_file, ALLOWED_EXT, hext]
    simp [uploadPost, hres, h1, h2, h3, hall]
  · intro lg form ai st h
    match lg with
    | false => rfl
    | true =>
      rcases hres : form.resume with _ | raw
      · simp [uploadPost, hres]
      · by_cases hmf : pyStrip form.name = "" ∨ pyStrip form.email = "" ∨
            pyStrip form.skills = ""
        · simp [uploadPost, hres, hmf]
        · by_cases hal : allowed_file raw = true
          · exfalso
            exact h (uniqueName st.resumesFolder (secure_filename raw))
              (analyze_resume_with_ai (pyStrip form.skills) ai).1
              (analyze_resume_with_ai (pyStrip form.skills) ai).2.1
              (by simp [uploadPost, hres, hmf, hal])
          · simp [uploadPost, hres, hmf, hal]

/-- C6 witness: a .docx upload is rejected and both stores are unchanged. -/
theorem C6_unsupported_type_witness :
    uploadPost true ⟨"a", "a@a.com", "python", some "cv.docx"⟩ (ModelOutcome.failure "net")
        ⟨["resume.pdf"], []⟩ =
      (UploadOutcome.unsupportedType, ⟨["resume.pdf"], []⟩) :=
  C6_unsupported_type.1 ⟨"a", "a@a.com", "python", some "cv.docx"⟩
    (ModelOutcome.failure "net") ⟨["resume.pdf"], []⟩ "cv.docx"
    (by decide) (by decide) (by decide) rfl (by decide)

/-- C2 fails as stated: a loaded record whose AIScore cell holds the
non-numeric text "abc" is not treated as 0 — the `int` conversion inside
the sort key raises a ValueError, so the ranking propagates an error
instead of returning. -/
theorem C2_counterexample :
    rowGet (dictRow ["Name", "AIScore"] ["a", "abc"]) "AIScore" = some (some "abc") ∧
    (rank [dictRow ["Name", "AIScore"] ["a", "abc"]]).isOk = false := by decide

/-- Helper: when every key evaluates to 0, traversing the keys succeeds. -/
theorem mapM_sortKey_ok (rows : List Record) (h : ∀ r ∈ rows, sortKey r = Except.ok 0) :
    rows.mapM sortKey = Except.ok (rows.map fun _ => (0 : Int)) := by
  induction rows with
  | nil => rfl
  | cons r rs ih =>
    rw [List.mapM_cons, h r (by simp), ih (fun x hx => h x (by simp [hx]))]
    rfl

/-- Helper: records with equal keys are pairwise ordered under the
descending comparator. -/
theorem pairwise_scoreLe_of_zero (rows : List Record) (h : ∀ r ∈ rows, keyD r = 0) :
    rows.Pairwise (fun a b => scoreLe a b = true) := by
  induction rows with
  | nil => exact .nil
  | cons r rs ih =>
    refine .cons ?_ (ih fun x hx => h x (by simp [hx]))
    intro b hb
    have h1 : keyD r = 0 := h r (by simp)
    have h2 : keyD b = 0 := h b (by simp [hb])
    simp [scoreLe, h1, h2]

/-- C2 amended: a record whose AIScore key is absent from the row is
treated as score 0 and causes no error — a ledger consisting of such
records ranks without raising and comes back unchanged — but a record
whose AIScore cell holds non-numeric text, or a short row's None cell,
makes the ranking raise from the `int` conversion rather than being
treated as 0 (see the counterexample). -/
theorem C2_missing_treated_as_zero (rows : List Record)
    (h : ∀ r ∈ rows, rowGet r "AIScore" = none) :
    (∀ r ∈ rows, sortKey r = Except.ok 0) ∧ rank rows = Except.ok rows := by
  have hk : ∀ r ∈ rows, sortKey r = Except.ok 0 := by
    intro r hr
    unfold sortKey
    rw [h r hr]
  have hz : ∀ r ∈ rows, keyD r = 0 := by
    intro r hr
    unfold keyD
    rw [hk r hr]
  refine ⟨hk, ?_⟩
  unfold rank
  rw [mapM_sortKey_ok rows hk,
    List.mergeSort_of_sorted (pairwise_scoreLe_of_zero rows hz)]

/-- C2 witness: a one-record ledger whose row lacks the AIScore column. -/
theorem C2_missing_treated_as_zero_witness :
    (∀ r ∈ [dictRow ["Name"] ["a"]], sortKey r = Except.ok 0) ∧
      rank [dictRow ["Name"] ["a"]] = Except.ok [dictRow ["Name"] ["a"]] :=
  C2_missing_treated_as_zero [dictRow ["Name"] ["a"]] (by decide)

/-- Helper: folding one more digit. -/
theorem decValue_append (l : List Char) (c : Char) :
    decValue (l ++ [c]) = 10 * decValue l + digitVal c := by
  unfold decValue
  rw [List.foldl_append]
  rfl

/-- Helper: the digit character of a digit value. -/
theorem digitVal_ofNat (d : Nat) (h : d < 10) : digitVal (Char.ofNat (48 + d)) = d := by
  interval_cases d <;> decide

/-- Helper: decimal production round-trips through digit evaluation. -/
theorem decValue_natDecimalAux (fuel : Nat) :
    ∀ n : Nat, n < fuel → decValue (natDecimalAux fuel n) = n := by
  induction fuel with
  | zero => intro n h; omega
  | succ f ih =>
    intro n h
    simp only [natDecimalAux]
    split
    · next hlt =>
      have hd := digitVal_ofNat n hlt
      simp [decValue, hd]
    · next hge =>
      have hdiv : n / 10 < n := Nat.div_lt_self (by omega) (by omega)
      rw [decValue_append, ih (n / 10) (by omega), digitVal_ofNat (n % 10) (by omega)]
      omega

/-- Helper: decimal digits determine the number. -/
theorem decValue_natDecimal (n : Nat) : decValue (natDecimal n) = n :=
  decValue_natDecimalAux (n + 1) n (by omega)

/-- Helper: Python decimal rendering is injective. -/
theorem natDecimal_inj {m n : Nat} (h : natDecimal m = natDecimal n) : m = n := by
  have h2 := congrArg decValue h
  rwa [decValue_natDecimal, decValue_natDecimal] at h2

/-- Helper: a decimal rendering is never empty. -/
theorem natDecimal_ne_nil (n : Nat) : natDecimal n ≠ [] := by
  unfold natDecimal
  simp only [natDecimalAux]
  split <;> simp

/-- Helper: base and extension of `splitext` concatenate to the input. -/
theorem splitext_data (p : String) :
    ((splitext p).1).data ++ ((splitext p).2).data = p.data := by
  simp only [splitext]
  split
  · exact List.take_append_drop _ _
  · simp

/-- Helper: character data of a suffixed candidate name. -/
theorem candName_data (base ext : String) (k : Nat) :
    (candName base ext k).data = base.data ++ '_' :: (natDecimal k ++ ext.data) := by
  show (base ++ "_" ++ (natDecimal k).asString ++ ext).data = _
  simp only [String.data_append]
  show base.data ++ ['_'] ++ natDecimal k ++ ext.data = _
  simp [List.append_assoc]

/-- Helper: suffixed candidate names with distinct counters differ. -/
theorem candName_inj (base ext : String) {j k : Nat}
    (h : candName base ext j = candName base ext k) : j = k := by
  have hd := congrArg String.data h
  rw [candName_data, candName_data] at hd
  have h1 := List.append_cancel_left hd
  have h2 : natDecimal j ++ ext.data = natDecimal k ++ ext.data := by
    injection h1
  exact natDecimal_inj (List.append_cancel_right h2)

/-- Helper: the original filename is shorter than any suffixed candidate
built from its own base and extension, hence differs from each of them. -/
theorem filename_ne_candName (filename : String) (k : Nat) :
    filename ≠ candName (splitext filename).1 (splitext filename).2 k := by
  intro h
  have hd := congrArg (fun s => s.data.length) h
  simp only [candName_data, List.length_append, List.length_cons] at hd
  have hsplit := congrArg List.length (splitext_data filename)
  rw [List.length_append] at hsplit
  have hne : (natDecimal k).length ≠ 0 := by
    simpa [List.length_eq_zero] using natDecimal_ne_nil k
  omega

/-- Helper: if the collision loop's result still collides, every name it
examined collides. -/
theorem findFreeName_mem_storage (storage : List String) (base ext : String) :
    ∀ (fuel counter : Nat) (current : String),
      findFreeName storage base ext current counter fuel ∈ storage →
      ∀ x ∈ triedNames base ext current counter fuel, x ∈ storage := by
  intro fuel
  induction fuel with
  | zero =>
    intro counter current _ x hx
    simp [triedNames] at hx
  | succ f ih =>
    intro counter current h x hx
    simp only [findFreeName] at h
    simp only [triedNames] at hx
    by_cases hc : current ∈ storage
    · rw [if_pos hc] at h
      rcases List.mem_cons.mp hx with rfl | hx'
      · exact hc
      · exact ih (counter + 1) (candName base ext counter) h x hx'
    · rw [if_neg hc] at h
      exact absurd h hc

/-- Helper: the names examined with positive fuel are the current name
followed by the suffixed candidates in counter order. -/
theorem triedNames_shape (base ext : String) :
    ∀ (f counter : Nat) (current : String),
      triedNames base ext current counter (f + 1) =
        current :: (List.range' counter f).map (candName base ext) := by
  intro f
  induction f with
  | zero =>
    intro counter current
    simp [triedNames, List.range']
  | succ f ih =>
    intro counter current
    rw [show triedNames base ext current counter (f + 1 + 1) =
      current :: triedNames base ext (candName base ext counter) (counter + 1) (f + 1) from rfl]
    rw [ih (counter + 1) (candName base ext counter)]
    simp [List.range']

/-- C5: the storage name resolved for an accepted upload never equals a
name already present in storage — the collision loop's suffixed candidates
are pairwise distinct, so within `storage.length + 1` attempts a free name
is found — and uploading "resume.pdf" twice with identical names stores
the second file as "resume_1.pdf". -/
theorem C5_unique_storage_name :
    (∀ (storage : List String) (filename : String),
      uniqueName storage filename ∉ storage) ∧
    (uploadPost true ⟨"a", "a@a.com", "python", some "resume.pdf"⟩
        (ModelOutcome.failure "net")
        ((uploadPost true ⟨"a", "a@a.com", "python", some "resume.pdf"⟩
          (ModelOutcome.failure "net") ⟨[], []⟩).2)).1 =
      UploadOutcome.stored "resume_1.pdf" 0 (Json.str "AI Processing Failed") := by
  constructor
  · intro storage filename hmem
    rw [uniqueName] at hmem
    have hall := findFreeName_mem_storage storage (splitext filename).1
      (splitext filename).2 (storage.length + 1) 1 filename hmem
    rw [triedNames_shape] at hall
    have hnodup : (filename :: (List.range' 1 storage.length).map
        (candName (splitext filename).1 (splitext filename).2)).Nodup := by
      rw [List.nodup_cons]
      constructor
      · intro hmm
        obtain ⟨i, _, heq⟩ := List.mem_map.mp hmm
        exact filename_ne_candName filename i heq.symm
      · exact (List.nodup_range' _ _).map
          (fun j k hjk => candName_inj (splitext filename).1 (splitext filename).2 hjk)
    have hsp := List.subperm_of_subset hnodup (fun x hx => hall x hx)
    have hlen := hsp.length_le
    simp at hlen
  · decide

/-- Helper: records sharing one key value are pairwise ordered under the
descending comparator. -/
theorem pairwise_scoreLe_of_const (v : Int) (l : List Record)
    (h : ∀ r ∈ l, keyD r = v) : l.Pairwise (fun a b => scoreLe a b = true) := by
  induction l with
  | nil => exact .nil
  | cons r rs ih =>
    refine .cons ?_ (ih fun x hx => h x (by simp [hx]))
    intro b hb
    simp [scoreLe, h r (by simp), h b (by simp [hb])]

/-- C3 fails as stated: over the ledger state holding a record whose score
cell is the non-numeric text "oops", ranking raises instead of returning a
sorted permutation of the loaded records. -/
theorem C3_counterexample :
    (rank (loadAll (some [["Name", "AIScore"], ["a", "10"], ["b", "oops"]]))).isOk
      = false := by decide

/-- C3 amended: for every ledger state on which ranking returns — every
record's score cell parses as an integer — the output is a permutation of
the loaded records, sorted by score descending, and the sort is stable:
for each score value, the records carrying it appear exactly in their
loaded (insertion) order. -/
theorem C3_rank_sorted_stable (file : CsvFile) (out : List Record)
    (h : rank (loadAll file) = Except.ok out) :
    out.Perm (loadAll file) ∧
    out.Pairwise (fun a b => keyD b ≤ keyD a) ∧
    (∀ v : Int, out.filter (fun r => keyD r == v) =
      (loadAll file).filter (fun r => keyD r == v)) := by
  have htrans : ∀ a b c : Record, scoreLe a b → scoreLe b c → scoreLe a c := by
    intro a b c hab hbc
    simp only [scoreLe, decide_eq_true_eq] at *
    omega
  have htotal : ∀ a b : Record, scoreLe a b || scoreLe b a := by
    intro a b
    simp only [scoreLe]
    rcases Int.le_total (keyD b) (keyD a) with h' | h' <;> simp [h']
  set rows := loadAll file with hrows
  have hout : out = rows.mergeSort scoreLe := by
    cases hm : rows.mapM sortKey with
    | error e =>
      simp only [rank, hm] at h
      exact Except.noConfusion h
    | ok ks =>
      simp only [rank, hm] at h
      injection h with h'
      exact h'.symm
  subst hout
  refine ⟨List.mergeSort_perm rows scoreLe, ?_, ?_⟩
  · exact (List.sorted_mergeSort htrans htotal rows).imp
      (fun {a b} hab => by simpa [scoreLe] using hab)
  · intro v
    have hmemkey : ∀ r ∈ rows.filter (fun r => keyD r == v), keyD r = v := by
      intro r hr
      have hp := List.of_mem_filter hr
      simpa using hp
    have hpair := pairwise_scoreLe_of_const v _ hmemkey
    have hsubl : List.Sublist (rows.filter (fun r => keyD r == v))
        (rows.mergeSort scoreLe) :=
      List.sublist_mergeSort htrans htotal hpair (List.filter_sublist rows)
    have h3 := hsubl.filter (fun r => keyD r == v)
    have h4 : (rows.filter (fun r => keyD r == v)).filter (fun r => keyD r == v) =
        rows.filter (fun r => keyD r == v) := by
      rw [List.filter_filter]
      simp
    rw [h4] at h3
    have hperm := (List.mergeSort_perm rows scoreLe).filter (fun r => keyD r == v)
    exact (h3.eq_of_length hperm.length_eq.symm).symm

/-- C3 witness: the spec's scenario — scores 10, 90, 90, 5 in insertion
order rank as the first 90, the second 90, then 10, then 5, and that
output is a permutation of the loaded records. -/
theorem C3_rank_sorted_stable_witness :
    rank (loadAll (some [["Name", "AIScore"],
        ["a", "10"], ["b", "90"], ["c", "90"], ["d", "5"]])) =
      Except.ok [dictRow ["Name", "AIScore"] ["b", "90"],
        dictRow ["Name", "AIScore"] ["c", "90"],
        dictRow ["Name", "AIScore"] ["a", "10"],
        dictRow ["Name", "AIScore"] ["d", "5"]] ∧
    [dictRow ["Name", "AIScore"] ["b", "90"],
      dictRow ["Name", "AIScore"] ["c", "90"],
      dictRow ["Name", "AIScore"] ["a", "10"],
      dictRow ["Name", "AIScore"] ["d", "5"]].Perm
        (loadAll (some [["Name", "AIScore"],
          ["a", "10"], ["b", "90"], ["c", "90"], ["d", "5"]])) := by
  have hload : loadAll (some [["Name", "AIScore"],
      ["a", "10"], ["b", "90"], ["c", "90"], ["d", "5"]]) =
      [dictRow ["Name", "AIScore"] ["a", "10"], dictRow ["Name", "AIScore"] ["b", "90"],
       dictRow ["Name", "AIScore"] ["c", "90"], dictRow ["Name", "AIScore"] ["d", "5"]] := by
    decide
  have k1 : keyD (dictRow ["Name", "AIScore"] ["a", "10"]) = 10 := by decide
  have k2 : keyD (dictRow ["Name", "AIScore"] ["b", "90"]) = 90 := by decide
  have k3 : keyD (dictRow ["Name", "AIScore"] ["c", "90"]) = 90 := by decide
  have k4 : keyD (dictRow ["Name", "AIScore"] ["d", "5"]) = 5 := by decide
  have hsort : [dictRow ["Name", "AIScore"] ["a", "10"], dictRow ["Name", "AIScore"] ["b", "90"],
      dictRow ["Name", "AIScore"] ["c", "90"],
      dictRow ["Name", "AIScore"] ["d", "5"]].mergeSort scoreLe =
      [dictRow ["Name", "AIScore"] ["b", "90"], dictRow ["Name", "AIScore"] ["c", "90"],
       dictRow ["Name", "AIScore"] ["a", "10"], dictRow ["Name", "AIScore"] ["d", "5"]] := by
    simp [List.mergeSort, List.splitInTwo, List.merge, scoreLe, k1, k2, k3, k4]
  have hrank : rank (loadAll (some [["Name", "AIScore"],
      ["a", "10"], ["b", "90"], ["c", "90"], ["d", "5"]])) =
      Except.ok ((loadAll (some [["Name", "AIScore"],
        ["a", "10"], ["b", "90"], ["c", "90"], ["d", "5"]])).mergeSort scoreLe) := by
    rw [hload]
    simp only [rank]
    rw [show [dictRow ["Name", "AIScore"] ["a", "10"], dictRow ["Name", "AIScore"] ["b", "90"],
      dictRow ["Name", "AIScore"] ["c", "90"],
      dictRow ["Name", "AIScore"] ["d", "5"]].mapM sortKey =
        Except.ok [(10 : Int), 90, 90, 5] from by decide]
  have hthm := C3_rank_sorted_stable (some [["Name", "AIScore"],
    ["a", "10"], ["b", "90"], ["c", "90"], ["d", "5"]]) _ hrank
  have hp := hthm.1
  rw [hload, hsort] at hp
  constructor
  · rw [hrank, hload, hsort]
  · rw [hload]
    exact hp
